import Mathlib

/-!
Shallow embedding of the gRPC-Web bridge of `schedule-management-api`
(`internal/grpcweb/handler.go` together with the token handling of
`internal/auth/auth.go`), and proofs about the claims of its specification.

Go byte slices are modelled as `List Nat` (each entry a byte value), Go
machine-integer conversions are explicit `% 2 ^ w` operations on `Nat`/`Int`,
and fallible operations return `Option`/`Except`.  A Go slice expression
`b[n:]` with a negative `n` is a runtime panic; decoder outcomes therefore
distinguish a dedicated `panicked` result.
-/

namespace GrpcWebBridge

/-- Decidable equality for `Except` results (Go's `(value, err)` pairs). -/
instance {ε α : Type} [DecidableEq ε] [DecidableEq α] : DecidableEq (Except ε α) := fun x y =>
  match x, y with
  | .ok a, .ok b =>
    if h : a = b then isTrue (h ▸ rfl) else isFalse fun hh => h (Except.ok.inj hh)
  | .error a, .error b =>
    if h : a = b then isTrue (h ▸ rfl) else isFalse fun hh => h (Except.error.inj hh)
  | .ok _, .error _ => isFalse fun h => Except.noConfusion h
  | .error _, .ok _ => isFalse fun h => Except.noConfusion h

/-- Go `[]byte`: a list of byte values (each `< 256` for values that arise
from a real request or from one of the encoders below). -/
abbrev Bytes := List Nat

/-- Go `binary.BigEndian.PutUint32` applied to `uint32(n)`: the four
big-endian base-256 digits of `n % 2 ^ 32`.  (Each digit formula only
depends on `n % 2 ^ 32`, so the Go `uint32` conversion is already
accounted for.) -/
def putUint32 (n : Nat) : Bytes :=
  [n / 2 ^ 24 % 256, n / 2 ^ 16 % 256, n / 2 ^ 8 % 256, n % 256]

/-- Go `binary.BigEndian.Uint32` of the first four bytes of `b`
(`handler.go` always calls it on a slice of length at least 4). -/
def uint32be (b : Bytes) : Nat :=
  b.headD 0 * 2 ^ 24 + (b.drop 1).headD 0 * 2 ^ 16 +
    (b.drop 2).headD 0 * 2 ^ 8 + (b.drop 3).headD 0

/-- UTF-8 encoding of one character, as in Go's `string` byte representation. -/
def charUtf8 (c : Char) : Bytes :=
  let n := c.toNat
  if n < 0x80 then [n]
  else if n < 0x800 then [0xC0 + n / 64, 0x80 + n % 64]
  else if n < 0x10000 then
    [0xE0 + n / 4096, 0x80 + n / 64 % 64, 0x80 + n % 64]
  else
    [0xF0 + n / 0x40000, 0x80 + n / 4096 % 64, 0x80 + n / 64 % 64, 0x80 + n % 64]

/-- The bytes of a Go string (UTF-8). -/
def strBytes (s : String) : Bytes :=
  (s.toList.map charUtf8).flatten

/-- The part of an `http.ResponseWriter` interaction the bridge controls:
status code, content type, and the written body bytes. -/
structure HttpResponse where
  status : Nat
  contentType : String
  body : Bytes
deriving DecidableEq, Repr

/-- The trailer text built by `writeError` (`handler.go:172`):
`fmt.Sprintf("grpc-status:%d\r\ngrpc-message:%s\r\n", code, msg)`. -/
def trailerText (code : Nat) (msg : String) : String :=
  "grpc-status:" ++ toString code ++ "\r\ngrpc-message:" ++ msg ++ "\r\n"

/-- Model of `writeError` (`handler.go:169-178`): HTTP 200, a single trailer frame
(flag `0x80`, 4-byte big-endian length, trailer text). -/
def writeError (code : Nat) (msg : String) : HttpResponse :=
  let tb := strBytes (trailerText code msg)
  { status := 200
    contentType := "application/grpc-web+proto"
    body := 0x80 :: putUint32 tb.length ++ tb }

/-- The success trailer text of `writeSuccess` (`handler.go:190`). -/
def successTrailer : String := "grpc-status:0\r\n"

/-- Model of `writeSuccess` (`handler.go:180-196`): HTTP 200, a data frame
(flag `0x00`, 4-byte big-endian length, payload) followed by a trailer
frame (flag `0x80`) with status line `grpc-status:0\r\n` and no message. -/
def writeSuccess (data : Bytes) : HttpResponse :=
  let tb := strBytes successTrailer
  { status := 200
    contentType := "application/grpc-web+proto"
    body := (0x00 :: putUint32 data.length ++ data) ++
      (0x80 :: putUint32 tb.length ++ tb) }

/-- The data frame built inside `writeSuccess` (`handler.go:184-187`):
flag `0x00`, 4-byte big-endian length of the payload, payload. -/
def encodeDataFrame (data : Bytes) : Bytes :=
  0x00 :: putUint32 data.length ++ data

/-- The inbound frame parse of `forward` (`handler.go:88-99`): reject a body
of fewer than 5 bytes, read the declared 4-byte big-endian length at offset
1, reject when `length + 5` exceeds the body, otherwise the payload is
`body[5 : 5+length]`.  The leading flag byte is never inspected. -/
def decodeFrame (body : Bytes) : Option Bytes :=
  if body.length < 5 then none
  else
    let msgLen := uint32be (body.drop 1)
    if msgLen + 5 > body.length then none
    else some ((body.drop 5).take msgLen)

/-- Frame kind per the specification's data model (§3). -/
inductive FrameKind where
  | data
  | trailer
deriving DecidableEq, Repr

/-- One decoded frame: kind and payload. -/
structure Frame where
  kind : FrameKind
  payload : Bytes
deriving DecidableEq, Repr

/-- Modelled from the spec: §4.1 `Decode` applied repeatedly until the body
is exhausted — the browser-side reader of a response body, which is not part
of this repository.  A frame is `Trailer` iff its flag byte is `0x80`; the
declared big-endian length must not exceed the remaining bytes. -/
def specSplitFrames (b : Bytes) : Option (List Frame) :=
  if b.isEmpty then some []
  else if b.length < 5 then none
  else
    let len := uint32be (b.drop 1)
    if b.length < 5 + len then none
    else
      match specSplitFrames (b.drop (5 + len)) with
      | none => none
      | some fs =>
        some (⟨if b.headD 0 = 0x80 then .trailer else .data, (b.drop 5).take len⟩ :: fs)
termination_by b.length
decreasing_by
  simp only [List.length_drop]
  omega

/-!
### The protobuf wire format primitives

The manual decoders/encoders of `handler.go` are written against
`google.golang.org/protobuf/encoding/protowire`.  The functions below embed
that package's semantics.  A Go return value `n < 0` (an error code) is
modelled as `none`; on success the consumed byte count `n` is at least 1.
-/

/-- Helper for `protowire.ConsumeVarint`: `acc` is the value of the bytes
consumed so far, `shift` the bit position of the next group, `idx` the
index of the byte about to be read (Go reads at most 10 bytes; the tenth
must be 0 or 1, and the accumulated value wraps at 64 bits). -/
def consumeVarintAux : Bytes → Nat → Nat → Nat → Option (Nat × Nat)
  | [], _, _, _ => none
  | y :: rest, acc, shift, idx =>
    if idx = 9 then
      if y < 2 then some ((acc + y * 2 ^ 63) % 2 ^ 64, 10) else none
    else if y < 0x80 then some ((acc + y * 2 ^ shift) % 2 ^ 64, idx + 1)
    else consumeVarintAux rest (acc + (y - 0x80) * 2 ^ shift) (shift + 7) (idx + 1)

/-- Model of `protowire.ConsumeVarint`: parse a base-128 varint, returning the value
(as `uint64`) and the number of bytes consumed, or `none` when truncated
or overflowing. -/
def consumeVarint (b : Bytes) : Option (Nat × Nat) :=
  consumeVarintAux b 0 0 0

/-- Model of `protowire.ConsumeTag`: a varint whose upper bits are the field number
(`int32`-truncated, must be at least 1) and whose low 3 bits are the wire
type.  Returns `(number, type, consumed)`. -/
def consumeTag (b : Bytes) : Option (Nat × Nat × Nat) :=
  match consumeVarint b with
  | none => none
  | some (v, n) =>
    let num := v / 8 % 2 ^ 32
    if num = 0 ∨ 2 ^ 31 ≤ num then none else some (num, v % 8, n)

/-- Model of `protowire.ConsumeBytes`: a varint length `m` followed by `m` bytes;
`none` when the claimed length exceeds the remaining bytes. -/
def consumeBytes (b : Bytes) : Option (Bytes × Nat) :=
  match consumeVarint b with
  | none => none
  | some (m, n) =>
    if b.length - n < m then none
    else some ((b.drop n).take m, n + m)

/-- Model of `protowire.ConsumeFixed32`: four little-endian bytes. -/
def consumeFixed32 (b : Bytes) : Option (Nat × Nat) :=
  if b.length < 4 then none
  else some (b.headD 0 + (b.drop 1).headD 0 * 2 ^ 8 + (b.drop 2).headD 0 * 2 ^ 16 +
    (b.drop 3).headD 0 * 2 ^ 24, 4)

/-- Model of `protowire.ConsumeFixed64`: eight little-endian bytes. -/
def consumeFixed64 (b : Bytes) : Option (Nat × Nat) :=
  if b.length < 8 then none
  else some ((List.range 8).foldr (fun i acc => (b.drop i).headD 0 * 2 ^ (8 * i) + acc) 0, 8)

mutual

/-- Model of `protowire.ConsumeFieldValue`: length in bytes of one field value of the
given wire type (0 varint, 1 fixed64, 2 length-delimited, 3 group start,
5 fixed32; type 4 is a stray group end and 6/7 are reserved, all errors).
The fuel argument only bounds group nesting/iteration; every successful
consume takes at least one byte, so `b.length + 1` fuel (as supplied by
`consumeFieldValue`) is never exhausted. -/
def consumeFieldValueF : Nat → Nat → Nat → Bytes → Option Nat
  | 0, _, _, _ => none
  | _ + 1, _, 0, b => (consumeVarint b).map (·.2)
  | _ + 1, _, 1, b => (consumeFixed64 b).map (·.2)
  | _ + 1, _, 2, b => (consumeBytes b).map (·.2)
  | fuel + 1, num, 3, b => consumeGroupF fuel num b
  | _ + 1, _, 5, b => (consumeFixed32 b).map (·.2)
  | _ + 1, _, _, _ => none

/-- Model of `protowire.ConsumeGroup` (inlined in Go's `ConsumeFieldValue`): consume
fields until the matching end-group tag for `num`. -/
def consumeGroupF : Nat → Nat → Bytes → Option Nat
  | 0, _, _ => none
  | fuel + 1, num, b =>
    match consumeTag b with
    | none => none
    | some (num2, typ2, n) =>
      if typ2 = 4 then
        if num2 = num then some n else none
      else
        match consumeFieldValueF fuel num2 typ2 (b.drop n) with
        | none => none
        | some m =>
          match consumeGroupF fuel num (b.drop (n + m)) with
          | none => none
          | some k => some (n + m + k)

end

/-- Model of `protowire.ConsumeFieldValue` at adequate fuel. -/
def consumeFieldValue (num typ : Nat) (b : Bytes) : Option Nat :=
  consumeFieldValueF (b.length + 1) num typ b

/-- The byte list emitted by `protowire.AppendVarint` for a `uint64` value
`v`: the source's unrolled switch over nine size classes plus the ten-byte
default (whose final byte is `byte(v >> 63)`). -/
def varintBytes (v : Nat) : Bytes :=
  if v < 2 ^ 7 then [v]
  else if v < 2 ^ 14 then [v % 128 + 128, v / 2 ^ 7]
  else if v < 2 ^ 21 then [v % 128 + 128, v / 2 ^ 7 % 128 + 128, v / 2 ^ 14]
  else if v < 2 ^ 28 then
    [v % 128 + 128, v / 2 ^ 7 % 128 + 128, v / 2 ^ 14 % 128 + 128, v / 2 ^ 21]
  else if v < 2 ^ 35 then
    [v % 128 + 128, v / 2 ^ 7 % 128 + 128, v / 2 ^ 14 % 128 + 128, v / 2 ^ 21 % 128 + 128,
      v / 2 ^ 28]
  else if v < 2 ^ 42 then
    [v % 128 + 128, v / 2 ^ 7 % 128 + 128, v / 2 ^ 14 % 128 + 128, v / 2 ^ 21 % 128 + 128,
      v / 2 ^ 28 % 128 + 128, v / 2 ^ 35]
  else if v < 2 ^ 49 then
    [v % 128 + 128, v / 2 ^ 7 % 128 + 128, v / 2 ^ 14 % 128 + 128, v / 2 ^ 21 % 128 + 128,
      v / 2 ^ 28 % 128 + 128, v / 2 ^ 35 % 128 + 128, v / 2 ^ 42]
  else if v < 2 ^ 56 then
    [v % 128 + 128, v / 2 ^ 7 % 128 + 128, v / 2 ^ 14 % 128 + 128, v / 2 ^ 21 % 128 + 128,
      v / 2 ^ 28 % 128 + 128, v / 2 ^ 35 % 128 + 128, v / 2 ^ 42 % 128 + 128, v / 2 ^ 49]
  else if v < 2 ^ 63 then
    [v % 128 + 128, v / 2 ^ 7 % 128 + 128, v / 2 ^ 14 % 128 + 128, v / 2 ^ 21 % 128 + 128,
      v / 2 ^ 28 % 128 + 128, v / 2 ^ 35 % 128 + 128, v / 2 ^ 42 % 128 + 128,
      v / 2 ^ 49 % 128 + 128, v / 2 ^ 56]
  else
    [v % 128 + 128, v / 2 ^ 7 % 128 + 128, v / 2 ^ 14 % 128 + 128, v / 2 ^ 21 % 128 + 128,
      v / 2 ^ 28 % 128 + 128, v / 2 ^ 35 % 128 + 128, v / 2 ^ 42 % 128 + 128,
      v / 2 ^ 49 % 128 + 128, v / 2 ^ 56 % 128 + 128, v / 2 ^ 63 % 256]

/-- Model of `protowire.AppendVarint` (its argument is a `uint64`, hence the wrap). -/
def appendVarint (b : Bytes) (v : Nat) : Bytes :=
  b ++ varintBytes (v % 2 ^ 64)

/-- Model of `protowire.AppendTag`: the varint of `EncodeTag(num, typ) = num<<3 | typ`. -/
def appendTag (b : Bytes) (num typ : Nat) : Bytes :=
  appendVarint b (num * 8 + typ)

/-- Model of `protowire.AppendBytes`: varint length then raw bytes. -/
def appendBytes (b : Bytes) (v : Bytes) : Bytes :=
  appendVarint b v.length ++ v

/-- Model of `protowire.AppendString`. -/
def appendString (b : Bytes) (s : String) : Bytes :=
  appendBytes b (strBytes s)

/-!
### Message records and Go integer casts

The `pb` request/response records used by the manual codecs, with Go
pointers to submessages as `Option` and Go strings as Lean strings.
-/

/-- Go `uint64(i)` for a signed integer value `i` (two's complement wrap). -/
def toUint64 (i : Int) : Nat :=
  (i % 2 ^ 64).toNat

/-- Go `int64(v)` for a `uint64` value `v`. -/
def toInt64 (v : Nat) : Int :=
  if v % 2 ^ 64 < 2 ^ 63 then (v % 2 ^ 64 : Int) else (v % 2 ^ 64 : Int) - 2 ^ 64

/-- Go `int32(v)` for a `uint64` value `v`. -/
def toInt32 (v : Nat) : Int :=
  if v % 2 ^ 32 < 2 ^ 31 then (v % 2 ^ 32 : Int) else (v % 2 ^ 32 : Int) - 2 ^ 32

/-- Model of `timestamppb.Timestamp`: `Seconds int64`, `Nanos int32`. -/
structure Timestamp where
  seconds : Int
  nanos : Int
deriving DecidableEq, Repr

/-- Model of `pb.Appointment` (fields in wire-number order 1-11). -/
structure Appointment where
  id : String
  title : String
  description : String
  startTime : Option Timestamp
  endTime : Option Timestamp
  userId : String
  status : String
  location : String
  attendeeIds : List String
  createdAt : Option Timestamp
  updatedAt : Option Timestamp
deriving DecidableEq, Repr

/-- Model of `pb.LoginRequest`. -/
structure LoginRequest where
  email : String := ""
  password : String := ""
deriving DecidableEq, Repr

/-- Model of `pb.RegisterRequest`. -/
structure RegisterRequest where
  email : String := ""
  password : String := ""
  name : String := ""
deriving DecidableEq, Repr

/-- Model of `pb.ListAppointmentsRequest`. -/
structure ListAppointmentsRequest where
  rangeStart : Option Timestamp := none
  rangeEnd : Option Timestamp := none
deriving DecidableEq, Repr

/-- Model of `pb.CreateAppointmentRequest`. -/
structure CreateAppointmentRequest where
  title : String := ""
  description : String := ""
  startTime : Option Timestamp := none
  endTime : Option Timestamp := none
  location : String := ""
  attendeeIds : List String := []
deriving DecidableEq, Repr

/-- Model of `pb.GetAppointmentRequest`. -/
structure GetAppointmentRequest where
  id : String := ""
deriving DecidableEq, Repr

/-- Model of `pb.UpdateAppointmentRequest`. -/
structure UpdateAppointmentRequest where
  id : String := ""
  title : String := ""
  description : String := ""
  startTime : Option Timestamp := none
  endTime : Option Timestamp := none
  location : String := ""
  attendeeIds : List String := []
deriving DecidableEq, Repr

/-- Model of `pb.DeleteAppointmentRequest`. -/
structure DeleteAppointmentRequest where
  id : String := ""
deriving DecidableEq, Repr

/-- Model of `pb.LoginResponse` (fields 1 token, 2 userId, 3 name). -/
structure LoginResponse where
  token : String
  userId : String
  name : String
deriving DecidableEq, Repr

/-- Model of `pb.RegisterResponse` (fields 1 userId, 2 token). -/
structure RegisterResponse where
  userId : String
  token : String
deriving DecidableEq, Repr

/-- Model of `pb.ListAppointmentsResponse`: a slice of appointment pointers. -/
structure ListAppointmentsResponse where
  appointments : List (Option Appointment)
deriving DecidableEq, Repr

/-- Model of `pb.CreateAppointmentResponse` / `GetAppointmentResponse` /
`UpdateAppointmentResponse`: one appointment pointer. -/
structure AppointmentResponse where
  appointment : Option Appointment
deriving DecidableEq, Repr

/-!
### The wire encoders (`handler.go:382-429` and the per-method encodes)
-/

/-- The `inner` buffer of `appendTimestamp` (`handler.go:386-394`): the
seconds field (1) is emitted only when non-zero, then the nanos field (2)
only when non-zero; both as varints of the Go unsigned conversion. -/
def tsInner (t : Timestamp) : Bytes :=
  let i := if t.seconds ≠ 0 then appendVarint (appendTag [] 1 0) (toUint64 t.seconds) else []
  if t.nanos ≠ 0 then appendVarint (appendTag i 2 0) (toUint64 t.nanos) else i

/-- Model of `appendTimestamp` (`handler.go:382-398`): a nil timestamp emits nothing;
otherwise tag `num`/length-delimited followed by the inner submessage. -/
def appendTimestamp (out : Bytes) (num : Nat) (ts : Option Timestamp) : Bytes :=
  match ts with
  | none => out
  | some t => appendBytes (appendTag out num 2) (tsInner t)

/-- The `inner` buffer of `appendAppointment` (`handler.go:404-424`):
strings at fields 1,2,3,6,7,8, timestamps at 4,5,10,11, and the attendee
list unpacked at field 9 — the string fields are emitted unconditionally. -/
def apptInner (a : Appointment) : Bytes :=
  let i := appendString (appendTag [] 1 2) a.id
  let i := appendString (appendTag i 2 2) a.title
  let i := appendString (appendTag i 3 2) a.description
  let i := appendTimestamp i 4 a.startTime
  let i := appendTimestamp i 5 a.endTime
  let i := appendString (appendTag i 6 2) a.userId
  let i := appendString (appendTag i 7 2) a.status
  let i := appendString (appendTag i 8 2) a.location
  let i := a.attendeeIds.foldl (fun acc att => appendString (appendTag acc 9 2) att) i
  let i := appendTimestamp i 10 a.createdAt
  appendTimestamp i 11 a.updatedAt

/-- Model of `appendAppointment` (`handler.go:400-429`). -/
def appendAppointment (out : Bytes) (num : Nat) (a : Option Appointment) : Bytes :=
  match a with
  | none => out
  | some a => appendBytes (appendTag out num 2) (apptInner a)

/-- The manual response encode of `manualLogin` (`handler.go:249-255`). -/
def encodeLoginResponse (r : LoginResponse) : Bytes :=
  appendString (appendTag (appendString (appendTag
    (appendString (appendTag [] 1 2) r.token) 2 2) r.userId) 3 2) r.name

/-- The manual response encode of `manualRegister` (`handler.go:298-302`). -/
def encodeRegisterResponse (r : RegisterResponse) : Bytes :=
  appendString (appendTag (appendString (appendTag [] 1 2) r.userId) 2 2) r.token

/-- The manual response encode of `manualListAppointments` (`handler.go:348-351`). -/
def encodeListResponse (r : ListAppointmentsResponse) : Bytes :=
  r.appointments.foldl (fun out a => appendAppointment out 1 a) []

/-!
### The manual request decoders (`handler.go`, one loop per method)

Each loop repeatedly consumes a tag and branches on the field number.  The
source checks for a negative consume result (`n < 0`) after `ConsumeTag`
in every method and after `ConsumeFieldValue` in `manualLogin`,
`manualRegister`, `manualListAppointments` and `manualCreateAppointment`;
those checks yield an InvalidArgument "parse error" response.  No method
checks the result of `ConsumeBytes`/`ConsumeVarint` in its known-field
branches, and `manualGetAppointment`, `manualUpdateAppointment` and
`manualDeleteAppointment` do not check `ConsumeFieldValue` either: there
`payload = payload[n:]` with negative `n` is a Go runtime panic, modelled
by the `panicked` outcome.  The fuel argument is `payload.length + 1` at
entry and cannot run out, because every loop iteration consumes at least
one byte.
-/

/-- Outcome of one manual decode loop. -/
inductive Decoded (α : Type) where
  | ok (a : α)
  | parseErr
  | panicked
deriving DecidableEq, Repr

/-- Go `string(v)` for a byte slice `v`: a byte-preserving cast (rendered
here codepoint-wise; the decoded text itself never matters to the claims). -/
def bytesToStr (b : Bytes) : String :=
  String.mk (b.map Char.ofNat)

/-- Model of `parseTimestamp` (`handler.go:355-380`): malformed tags and malformed
unknown fields return the partially filled timestamp (no error), but a
failed `ConsumeVarint` in the seconds/nanos branches slices with a
negative index — `none` models that panic. -/
def parseTimestampLoop : Nat → Bytes → Timestamp → Option Timestamp
  | 0, _, _ => none
  | _ + 1, [], ts => some ts
  | fuel + 1, b, ts =>
    match consumeTag b with
    | none => some ts
    | some (num, typ, n) =>
      let rest := b.drop n
      if num = 1 ∧ typ = 0 then
        match consumeVarint rest with
        | none => none
        | some (v, m) => parseTimestampLoop fuel (rest.drop m) { ts with seconds := toInt64 v }
      else if num = 2 ∧ typ = 0 then
        match consumeVarint rest with
        | none => none
        | some (v, m) => parseTimestampLoop fuel (rest.drop m) { ts with nanos := toInt32 v }
      else
        match consumeFieldValue num typ rest with
        | none => some ts
        | some m => parseTimestampLoop fuel (rest.drop m) ts

/-- Model of `parseTimestamp` entry point (starts from the zero `timestamppb.Timestamp`). -/
def parseTimestamp (b : Bytes) : Option Timestamp :=
  parseTimestampLoop (b.length + 1) b ⟨0, 0⟩

/-- The decode loop of `manualLogin` (`handler.go:216-239`). -/
def decodeLoginLoop : Nat → Bytes → LoginRequest → Decoded LoginRequest
  | 0, _, _ => .panicked
  | _ + 1, [], req => .ok req
  | fuel + 1, payload, req =>
    match consumeTag payload with
    | none => .parseErr
    | some (num, typ, n) =>
      let rest := payload.drop n
      if num = 1 ∧ typ = 2 then
        match consumeBytes rest with
        | none => .panicked
        | some (v, m) => decodeLoginLoop fuel (rest.drop m) { req with email := bytesToStr v }
      else if num = 2 ∧ typ = 2 then
        match consumeBytes rest with
        | none => .panicked
        | some (v, m) => decodeLoginLoop fuel (rest.drop m) { req with password := bytesToStr v }
      else
        match consumeFieldValue num typ rest with
        | none => .parseErr
        | some m => decodeLoginLoop fuel (rest.drop m) req

/-- Model of `manualLogin`'s request decode. -/
def decodeLoginRequest (payload : Bytes) : Decoded LoginRequest :=
  decodeLoginLoop (payload.length + 1) payload {}

/-- The decode loop of `manualRegister` (`handler.go:262-289`). -/
def decodeRegisterLoop : Nat → Bytes → RegisterRequest → Decoded RegisterRequest
  | 0, _, _ => .panicked
  | _ + 1, [], req => .ok req
  | fuel + 1, payload, req =>
    match consumeTag payload with
    | none => .parseErr
    | some (num, typ, n) =>
      let rest := payload.drop n
      if num = 1 ∧ typ = 2 then
        match consumeBytes rest with
        | none => .panicked
        | some (v, m) => decodeRegisterLoop fuel (rest.drop m) { req with email := bytesToStr v }
      else if num = 2 ∧ typ = 2 then
        match consumeBytes rest with
        | none => .panicked
        | some (v, m) => decodeRegisterLoop fuel (rest.drop m) { req with password := bytesToStr v }
      else if num = 3 ∧ typ = 2 then
        match consumeBytes rest with
        | none => .panicked
        | some (v, m) => decodeRegisterLoop fuel (rest.drop m) { req with name := bytesToStr v }
      else
        match consumeFieldValue num typ rest with
        | none => .parseErr
        | some m => decodeRegisterLoop fuel (rest.drop m) req

/-- Model of `manualRegister`'s request decode. -/
def decodeRegisterRequest (payload : Bytes) : Decoded RegisterRequest :=
  decodeRegisterLoop (payload.length + 1) payload {}

/-- The decode loop of `manualListAppointments` (`handler.go:316-339`);
the timestamp fields hand the consumed bytes to `parseTimestamp`, whose
panic propagates. -/
def decodeListLoop : Nat → Bytes → ListAppointmentsRequest → Decoded ListAppointmentsRequest
  | 0, _, _ => .panicked
  | _ + 1, [], req => .ok req
  | fuel + 1, payload, req =>
    match consumeTag payload with
    | none => .parseErr
    | some (num, typ, n) =>
      let rest := payload.drop n
      if num = 1 ∧ typ = 2 then
        match consumeBytes rest with
        | none => .panicked
        | some (v, m) =>
          match parseTimestamp v with
          | none => .panicked
          | some ts => decodeListLoop fuel (rest.drop m) { req with rangeStart := some ts }
      else if num = 2 ∧ typ = 2 then
        match consumeBytes rest with
        | none => .panicked
        | some (v, m) =>
          match parseTimestamp v with
          | none => .panicked
          | some ts => decodeListLoop fuel (rest.drop m) { req with rangeEnd := some ts }
      else
        match consumeFieldValue num typ rest with
        | none => .parseErr
        | some m => decodeListLoop fuel (rest.drop m) req

/-- Model of `manualListAppointments`'s request decode. -/
def decodeListRequest (payload : Bytes) : Decoded ListAppointmentsRequest :=
  decodeListLoop (payload.length + 1) payload {}

/-- The decode loop of `manualCreateAppointment` (`handler.go:440-481`). -/
def decodeCreateLoop : Nat → Bytes → CreateAppointmentRequest → Decoded CreateAppointmentRequest
  | 0, _, _ => .panicked
  | _ + 1, [], req => .ok req
  | fuel + 1, payload, req =>
    match consumeTag payload with
    | none => .parseErr
    | some (num, typ, n) =>
      let rest := payload.drop n
      if num = 1 ∧ typ = 2 then
        match consumeBytes rest with
        | none => .panicked
        | some (v, m) => decodeCreateLoop fuel (rest.drop m) { req with title := bytesToStr v }
      else if num = 2 ∧ typ = 2 then
        match consumeBytes rest with
        | none => .panicked
        | some (v, m) => decodeCreateLoop fuel (rest.drop m) { req with description := bytesToStr v }
      else if num = 3 ∧ typ = 2 then
        match consumeBytes rest with
        | none => .panicked
        | some (v, m) =>
          match parseTimestamp v with
          | none => .panicked
          | some ts => decodeCreateLoop fuel (rest.drop m) { req with startTime := some ts }
      else if num = 4 ∧ typ = 2 then
        match consumeBytes rest with
        | none => .panicked
        | some (v, m) =>
          match parseTimestamp v with
          | none => .panicked
          | some ts => decodeCreateLoop fuel (rest.drop m) { req with endTime := some ts }
      else if num = 5 ∧ typ = 2 then
        match consumeBytes rest with
        | none => .panicked
        | some (v, m) => decodeCreateLoop fuel (rest.drop m) { req with location := bytesToStr v }
      else if num = 6 ∧ typ = 2 then
        match consumeBytes rest with
        | none => .panicked
        | some (v, m) =>
          decodeCreateLoop fuel (rest.drop m)
            { req with attendeeIds := req.attendeeIds ++ [bytesToStr v] }
      else
        match consumeFieldValue num typ rest with
        | none => .parseErr
        | some m => decodeCreateLoop fuel (rest.drop m) req

/-- Model of `manualCreateAppointment`'s request decode. -/
def decodeCreateRequest (payload : Bytes) : Decoded CreateAppointmentRequest :=
  decodeCreateLoop (payload.length + 1) payload {}

/-- The decode loop of `manualGetAppointment` (`handler.go:504-519`); note
the unknown-field branch performs no `n < 0` check before slicing. -/
def decodeGetLoop : Nat → Bytes → GetAppointmentRequest → Decoded GetAppointmentRequest
  | 0, _, _ => .panicked
  | _ + 1, [], req => .ok req
  | fuel + 1, payload, req =>
    match consumeTag payload with
    | none => .parseErr
    | some (num, typ, n) =>
      let rest := payload.drop n
      if num = 1 ∧ typ = 2 then
        match consumeBytes rest with
        | none => .panicked
        | some (v, m) => decodeGetLoop fuel (rest.drop m) { req with id := bytesToStr v }
      else
        match consumeFieldValue num typ rest with
        | none => .panicked
        | some m => decodeGetLoop fuel (rest.drop m) req

/-- Model of `manualGetAppointment`'s request decode. -/
def decodeGetRequest (payload : Bytes) : Decoded GetAppointmentRequest :=
  decodeGetLoop (payload.length + 1) payload {}

/-- The decode loop of `manualUpdateAppointment` (`handler.go:542-581`);
its unknown-field branch also performs no `n < 0` check. -/
def decodeUpdateLoop : Nat → Bytes → UpdateAppointmentRequest → Decoded UpdateAppointmentRequest
  | 0, _, _ => .panicked
  | _ + 1, [], req => .ok req
  | fuel + 1, payload, req =>
    match consumeTag payload with
    | none => .parseErr
    | some (num, typ, n) =>
      let rest := payload.drop n
      if num = 1 ∧ typ = 2 then
        match consumeBytes rest with
        | none => .panicked
        | some (v, m) => decodeUpdateLoop fuel (rest.drop m) { req with id := bytesToStr v }
      else if num = 2 ∧ typ = 2 then
        match consumeBytes rest with
        | none => .panicked
        | some (v, m) => decodeUpdateLoop fuel (rest.drop m) { req with title := bytesToStr v }
      else if num = 3 ∧ typ = 2 then
        match consumeBytes rest with
        | none => .panicked
        | some (v, m) => decodeUpdateLoop fuel (rest.drop m) { req with description := bytesToStr v }
      else if num = 4 ∧ typ = 2 then
        match consumeBytes rest with
        | none => .panicked
        | some (v, m) =>
          match parseTimestamp v with
          | none => .panicked
          | some ts => decodeUpdateLoop fuel (rest.drop m) { req with startTime := some ts }
      else if num = 5 ∧ typ = 2 then
        match consumeBytes rest with
        | none => .panicked
        | some (v, m) =>
          match parseTimestamp v with
          | none => .panicked
          | some ts => decodeUpdateLoop fuel (rest.drop m) { req with endTime := some ts }
      else if num = 6 ∧ typ = 2 then
        match consumeBytes rest with
        | none => .panicked
        | some (v, m) => decodeUpdateLoop fuel (rest.drop m) { req with location := bytesToStr v }
      else if num = 7 ∧ typ = 2 then
        match consumeBytes rest with
        | none => .panicked
        | some (v, m) =>
          decodeUpdateLoop fuel (rest.drop m)
            { req with attendeeIds := req.attendeeIds ++ [bytesToStr v] }
      else
        match consumeFieldValue num typ rest with
        | none => .panicked
        | some m => decodeUpdateLoop fuel (rest.drop m) req

/-- Model of `manualUpdateAppointment`'s request decode. -/
def decodeUpdateRequest (payload : Bytes) : Decoded UpdateAppointmentRequest :=
  decodeUpdateLoop (payload.length + 1) payload {}

/-- The decode loop of `manualDeleteAppointment` (`handler.go:604-619`);
its unknown-field branch also performs no `n < 0` check. -/
def decodeDeleteLoop : Nat → Bytes → DeleteAppointmentRequest → Decoded DeleteAppointmentRequest
  | 0, _, _ => .panicked
  | _ + 1, [], req => .ok req
  | fuel + 1, payload, req =>
    match consumeTag payload with
    | none => .parseErr
    | some (num, typ, n) =>
      let rest := payload.drop n
      if num = 1 ∧ typ = 2 then
        match consumeBytes rest with
        | none => .panicked
        | some (v, m) => decodeDeleteLoop fuel (rest.drop m) { req with id := bytesToStr v }
      else
        match consumeFieldValue num typ rest with
        | none => .panicked
        | some m => decodeDeleteLoop fuel (rest.drop m) req

/-- Model of `manualDeleteAppointment`'s request decode. -/
def decodeDeleteRequest (payload : Bytes) : Decoded DeleteAppointmentRequest :=
  decodeDeleteLoop (payload.length + 1) payload {}

/-!
### The auth bridge (`auth.go:42-58` and `handler.go:201-211`)

`ParseToken` delegates to `golang-jwt/v5`'s `ParseWithClaims` with a key
function that rejects any signing method outside the HMAC family.  The
library's parse pipeline is embedded structurally: split the compact
serialization on `.` into exactly three segments, base64url-decode and
JSON-decode the header to obtain the declared `alg`, look the algorithm up
in the method registry, decode the claims, call the key function, verify
the signature, validate the claims.  The encoding/crypto primitives
(base64url+JSON decoding, MAC verification, time-based claim validation)
are supplied as an explicit parameter record `JwtPrim`; the segment
character-set check reflects that `base64.RawURLEncoding` rejects any
character outside `A-Z a-z 0-9 - _`.  Auth-layer strings are `List Char`
(Go strings) so that prefix/split manipulation stays structural.
-/

/-- The signing algorithms registered by `golang-jwt/v5`. -/
inductive SigAlg where
  | HS256 | HS384 | HS512
  | RS256 | RS384 | RS512
  | ES256 | ES384 | ES512
  | PS256 | PS384 | PS512
  | EdDSA
  | noAlg
deriving DecidableEq, Repr

/-- Membership in the symmetric `jwt.SigningMethodHMAC` family — the test
performed by `ParseToken`'s key function (`auth.go:45`). -/
def SigAlg.isHMAC : SigAlg → Bool
  | .HS256 | .HS384 | .HS512 => true
  | _ => false

/-- Model of `jwt.GetSigningMethod`: the `alg` header value to registered method. -/
def getSigningMethod (s : List Char) : Option SigAlg :=
  if s = "HS256".toList then some .HS256
  else if s = "HS384".toList then some .HS384
  else if s = "HS512".toList then some .HS512
  else if s = "RS256".toList then some .RS256
  else if s = "RS384".toList then some .RS384
  else if s = "RS512".toList then some .RS512
  else if s = "ES256".toList then some .ES256
  else if s = "ES384".toList then some .ES384
  else if s = "ES512".toList then some .ES512
  else if s = "PS256".toList then some .PS256
  else if s = "PS384".toList then some .PS384
  else if s = "PS512".toList then some .PS512
  else if s = "EdDSA".toList then some .EdDSA
  else if s = "none".toList then some .noAlg
  else none

/-- Model of `auth.Claims`: the custom claim set (`uid` plus registered claims; the
registered part only matters through `JwtPrim.claimsValid`). -/
structure Claims where
  uid : String
deriving DecidableEq, Repr

/-- A character of the `base64.RawURLEncoding` alphabet. -/
def isB64UrlChar (c : Char) : Bool :=
  c.isAlphanum || c = '-' || c = '_'

/-- Go `strings.Split(s, ".")` for a one-character separator. -/
def splitOnDot : List Char → List (List Char)
  | [] => [[]]
  | c :: rest =>
    if c = '.' then [] :: splitOnDot rest
    else
      match splitOnDot rest with
      | [] => [[c]]
      | g :: gs => (c :: g) :: gs

/-- The encoding/crypto primitives used by the JWT library, kept abstract:
header decoding yields the declared `alg` value, claims decoding yields the
claim record, `verifySig` checks the MAC over the signing string against
the signature segment, and `claimsValid` is the time-based validation. -/
structure JwtPrim where
  decodeHeaderAlg : List Char → Option (List Char)
  decodeClaims : List Char → Option Claims
  verifySig : SigAlg → String → List Char → List Char → Bool
  claimsValid : Claims → Bool

/-- Failure causes of the embedded `ParseToken`. -/
inductive TokenErr where
  | malformed
  | methodUnknown
  | badToken
  | sigInvalid
  | claimsInvalid
deriving DecidableEq, Repr

/-- Model of `auth.ParseToken` (`auth.go:42-58`) through `jwt.ParseWithClaims`: the
key function (`auth.go:44-48`) returns `ErrBadToken` whenever the declared
method is not HMAC, which fails the parse. -/
def parseToken (prim : JwtPrim) (raw : List Char) (secret : String) : Except TokenErr Claims :=
  match splitOnDot raw with
  | [h, p, s] =>
    if h.all isB64UrlChar && p.all isB64UrlChar && s.all isB64UrlChar then
      match prim.decodeHeaderAlg h with
      | none => .error .malformed
      | some algName =>
        match getSigningMethod algName with
        | none => .error .methodUnknown
        | some m =>
          match prim.decodeClaims p with
          | none => .error .malformed
          | some c =>
            if !m.isHMAC then .error .badToken
            else if !prim.verifySig m secret (h ++ '.' :: p) s then .error .sigInvalid
            else if !prim.claimsValid c then .error .claimsInvalid
            else .ok c
    else .error .malformed
  | _ => .error .malformed

/-- The signing method a raw token declares (header segment's `alg`,
resolved in the method registry). -/
def declaredMethod (prim : JwtPrim) (raw : List Char) : Option SigAlg :=
  match splitOnDot raw with
  | [h, _, _] => (prim.decodeHeaderAlg h).bind getSigningMethod
  | _ => none

/-- Go `strings.TrimPrefix(authHeader, "Bearer ")` (`handler.go:205`):
a no-op when the prefix is absent. -/
def trimBearer (s : List Char) : List Char :=
  let pre := "Bearer ".toList
  if pre.isPrefixOf s then s.drop pre.length else s

/-- Model of `manualAuth` (`handler.go:201-211`): empty header fails with
`Unauthenticated`/"no token"; otherwise the optionally-prefixed token is
parsed, failure giving `Unauthenticated`/"bad token" and success a context
carrying the resolved user id. -/
def manualAuth (prim : JwtPrim) (secret : String) (authHeader : List Char) :
    Except (Nat × String) String :=
  if authHeader = [] then .error (16, "no token")
  else
    match parseToken prim (trimBearer authHeader) secret with
    | .error _ => .error (16, "bad token")
    | .ok c => .ok c.uid

/-!
### Dispatch (`handler.go:82-151` and the seven `manual*` methods)
-/

/-- A gRPC status error as seen through `status.FromError`. -/
structure GrpcErr where
  code : Nat
  msg : String
deriving DecidableEq, Repr

/-- The in-process `handler.Handler` collaborator: one operation per RPC
method; the authenticated operations receive the user id resolved by the
auth bridge.  (Business logic is opaque to the bridge.) -/
structure DirectHandler where
  login : LoginRequest → Except GrpcErr LoginResponse
  register : RegisterRequest → Except GrpcErr RegisterResponse
  listAppointments : String → ListAppointmentsRequest → Except GrpcErr ListAppointmentsResponse
  createAppointment : String → CreateAppointmentRequest → Except GrpcErr AppointmentResponse
  getAppointment : String → GetAppointmentRequest → Except GrpcErr AppointmentResponse
  updateAppointment : String → UpdateAppointmentRequest → Except GrpcErr AppointmentResponse
  deleteAppointment : String → DeleteAppointmentRequest → Except GrpcErr Unit

/-- One observable collaborator invocation (the "spy"/"call counter" view
the spec's testable properties ask for). -/
inductive Call where
  | backend (path : String) (auth : List Char) (payload : Bytes)
  | handlerOp (name : String)
deriving DecidableEq, Repr

/-- Outcome of handling one request: the written HTTP response together
with the collaborator calls made, or a Go runtime panic. -/
inductive Res where
  | http (resp : HttpResponse) (calls : List Call)
  | panicked
deriving DecidableEq, Repr

/-- Model of `manualLogin` (`handler.go:213-258`). -/
def manualLogin (d : DirectHandler) (payload : Bytes) : Res :=
  match decodeLoginRequest payload with
  | .panicked => .panicked
  | .parseErr => .http (writeError 3 "parse error") []
  | .ok req =>
    match d.login req with
    | .error e => .http (writeError e.code e.msg) [.handlerOp ("Login")]
    | .ok r => .http (writeSuccess (encodeLoginResponse r)) [.handlerOp ("Login")]

/-- Model of `manualRegister` (`handler.go:260-305`). -/
def manualRegister (d : DirectHandler) (payload : Bytes) : Res :=
  match decodeRegisterRequest payload with
  | .panicked => .panicked
  | .parseErr => .http (writeError 3 "parse error") []
  | .ok req =>
    match d.register req with
    | .error e => .http (writeError e.code e.msg) [.handlerOp ("Register")]
    | .ok r => .http (writeSuccess (encodeRegisterResponse r)) [.handlerOp ("Register")]

/-- Model of `manualListAppointments` (`handler.go:307-353`): auth first, then
decode, then the handler operation, then the manual encode. -/
def manualListAppointments (prim : JwtPrim) (secret : String) (d : DirectHandler)
    (payload : Bytes) (authHeader : List Char) : Res :=
  match manualAuth prim secret authHeader with
  | .error e => .http (writeError e.1 e.2) []
  | .ok uid =>
    match decodeListRequest payload with
    | .panicked => .panicked
    | .parseErr => .http (writeError 3 "parse error") []
    | .ok req =>
      match d.listAppointments uid req with
      | .error e => .http (writeError e.code e.msg) [.handlerOp ("ListAppointments")]
      | .ok r => .http (writeSuccess (encodeListResponse r)) [.handlerOp ("ListAppointments")]

/-- Model of `manualCreateAppointment` (`handler.go:431-493`). -/
def manualCreateAppointment (prim : JwtPrim) (secret : String) (d : DirectHandler)
    (payload : Bytes) (authHeader : List Char) : Res :=
  match manualAuth prim secret authHeader with
  | .error e => .http (writeError e.1 e.2) []
  | .ok uid =>
    match decodeCreateRequest payload with
    | .panicked => .panicked
    | .parseErr => .http (writeError 3 "parse error") []
    | .ok req =>
      match d.createAppointment uid req with
      | .error e => .http (writeError e.code e.msg) [.handlerOp ("CreateAppointment")]
      | .ok r =>
        .http (writeSuccess (appendAppointment [] 1 r.appointment)) [.handlerOp ("CreateAppointment")]

/-- Model of `manualGetAppointment` (`handler.go:495-531`). -/
def manualGetAppointment (prim : JwtPrim) (secret : String) (d : DirectHandler)
    (payload : Bytes) (authHeader : List Char) : Res :=
  match manualAuth prim secret authHeader with
  | .error e => .http (writeError e.1 e.2) []
  | .ok uid =>
    match decodeGetRequest payload with
    | .panicked => .panicked
    | .parseErr => .http (writeError 3 "parse error") []
    | .ok req =>
      match d.getAppointment uid req with
      | .error e => .http (writeError e.code e.msg) [.handlerOp ("GetAppointment")]
      | .ok r =>
        .http (writeSuccess (appendAppointment [] 1 r.appointment)) [.handlerOp ("GetAppointment")]

/-- Model of `manualUpdateAppointment` (`handler.go:533-593`). -/
def manualUpdateAppointment (prim : JwtPrim) (secret : String) (d : DirectHandler)
    (payload : Bytes) (authHeader : List Char) : Res :=
  match manualAuth prim secret authHeader with
  | .error e => .http (writeError e.1 e.2) []
  | .ok uid =>
    match decodeUpdateRequest payload with
    | .panicked => .panicked
    | .parseErr => .http (writeError 3 "parse error") []
    | .ok req =>
      match d.updateAppointment uid req with
      | .error e => .http (writeError e.code e.msg) [.handlerOp ("UpdateAppointment")]
      | .ok r =>
        .http (writeSuccess (appendAppointment [] 1 r.appointment)) [.handlerOp ("UpdateAppointment")]

/-- Model of `manualDeleteAppointment` (`handler.go:595-629`): success writes an
empty data payload. -/
def manualDeleteAppointment (prim : JwtPrim) (secret : String) (d : DirectHandler)
    (payload : Bytes) (authHeader : List Char) : Res :=
  match manualAuth prim secret authHeader with
  | .error e => .http (writeError e.1 e.2) []
  | .ok uid =>
    match decodeDeleteRequest payload with
    | .panicked => .panicked
    | .parseErr => .http (writeError 3 "parse error") []
    | .ok req =>
      match d.deleteAppointment uid req with
      | .error e => .http (writeError e.code e.msg) [.handlerOp ("DeleteAppointment")]
      | .ok _ => .http (writeSuccess []) [.handlerOp ("DeleteAppointment")]

/-- Go `strings.HasSuffix`. -/
def hasSuffixStr (s tail : String) : Bool :=
  tail.toList.isSuffixOf s.toList

/-- Model of `rawCodec.Marshal` (`handler.go:159-161`): pass-through. -/
def rawMarshal (d : Bytes) : Bytes := d

/-- Model of `rawCodec.Unmarshal` (`handler.go:162-166`): a fresh copy of the bytes
(value-equal to its input). -/
def rawUnmarshal (data : Bytes) : Bytes := data

/-- The backend transport (`grpc.ClientConn.Invoke` with `rawCodec`):
method path, forwarded `Authorization` value, raw request bytes, to raw
response bytes or a status code/message. -/
abbrev Transport := String → List Char → Bytes → Except GrpcErr Bytes

/-- The opaque-forwarding tail of `forward` (`handler.go:140-151`). -/
def relayBackend (transport : Transport) (path : String) (auth : List Char)
    (payload : Bytes) : Res :=
  match transport path auth (rawMarshal payload) with
  | .error e => .http (writeError e.code e.msg) [.backend path auth (rawMarshal payload)]
  | .ok data => .http (writeSuccess (rawUnmarshal data)) [.backend path auth (rawMarshal payload)]

/-- Model of `forward` (`handler.go:82-151`): frame checks, then suffix-based
dispatch to the direct methods when a direct handler is installed, opaque
forwarding otherwise.  The single `Authorization` header value `auth`
(`[]` when absent) serves both the forwarded metadata and the value handed
to `manualAuth`. -/
def forward (prim : JwtPrim) (secret : String) (direct : Option DirectHandler)
    (transport : Transport) (path : String) (auth : List Char) (body : Bytes) : Res :=
  if body.length < 5 then .http (writeError 3 "body too short") []
  else
    let msgLen := uint32be (body.drop 1)
    if msgLen + 5 > body.length then .http (writeError 3 "incomplete frame") []
    else
      let payload := (body.drop 5).take msgLen
      match direct with
      | none => relayBackend transport path auth payload
      | some d =>
        if hasSuffixStr path ("/Login") then manualLogin d payload
        else if hasSuffixStr path ("/Register") then manualRegister d payload
        else if hasSuffixStr path ("/ListAppointments") then
          manualListAppointments prim secret d payload auth
        else if hasSuffixStr path ("/CreateAppointment") then
          manualCreateAppointment prim secret d payload auth
        else if hasSuffixStr path ("/GetAppointment") then
          manualGetAppointment prim secret d payload auth
        else if hasSuffixStr path ("/UpdateAppointment") then
          manualUpdateAppointment prim secret d payload auth
        else if hasSuffixStr path ("/DeleteAppointment") then
          manualDeleteAppointment prim secret d payload auth
        else relayBackend transport path auth payload

/-!
### Concrete instances used to evaluate the theorems on closed inputs
-/

/-- A `JwtPrim` whose header decode always reports `HS256` and whose
crypto checks accept (used to exercise the accepting paths). -/
def hsPrim : JwtPrim :=
  { decodeHeaderAlg := fun _ => some ("HS256".toList)
    decodeClaims := fun _ => some ⟨"u1"⟩
    verifySig := fun _ _ _ _ => true
    claimsValid := fun _ => true }

/-- A `JwtPrim` whose header decode always reports `RS256` (an asymmetric
family), with otherwise accepting primitives. -/
def rsPrim : JwtPrim :=
  { decodeHeaderAlg := fun _ => some ("RS256".toList)
    decodeClaims := fun _ => some ⟨"u1"⟩
    verifySig := fun _ _ _ _ => true
    claimsValid := fun _ => true }

/-- A handler stub (its operations all fail with `Internal`); dispatch
results never depend on it in the theorems that use it. -/
def stubHandler : DirectHandler :=
  { login := fun _ => .error ⟨13, "stub"⟩
    register := fun _ => .error ⟨13, "stub"⟩
    listAppointments := fun _ _ => .error ⟨13, "stub"⟩
    createAppointment := fun _ _ => .error ⟨13, "stub"⟩
    getAppointment := fun _ _ => .error ⟨13, "stub"⟩
    updateAppointment := fun _ _ => .error ⟨13, "stub"⟩
    deleteAppointment := fun _ _ => .error ⟨13, "stub"⟩ }

/-- A backend transport stub that echoes the request payload. -/
def okTransport : Transport := fun _ _ data => .ok data

/-- The zero-valued (`&pb.Appointment{}`) appointment. -/
def emptyAppointment : Appointment :=
  ⟨"", "", "", none, none, "", "", "", [], none, none⟩

/-- A payload of `2 ^ 32` zero bytes — long enough that `uint32(len)`
wraps to 0. -/
def bigPayload : Bytes := List.replicate (2 ^ 32) 0

/-!
## Helper lemmas
-/

/-- Reading back the four big-endian digits of a value below `2 ^ 32`
recovers it. -/
theorem uint32be_putUint32 (n : Nat) (rest : Bytes) (h : n < 2 ^ 32) :
    uint32be (putUint32 n ++ rest) = n := by
  simp [putUint32, uint32be]
  omega

/-- An exhausted body splits into no frames. -/
theorem specSplitFrames_nil : specSplitFrames [] = some [] := by
  rw [specSplitFrames]
  simp

/-- Splitting off one well-formed frame whose declared length fits. -/
theorem specSplitFrames_cons (flag : Nat) (payload rest : Bytes) (h : payload.length < 2 ^ 32) :
    specSplitFrames (flag :: putUint32 payload.length ++ (payload ++ rest)) =
      (specSplitFrames rest).map
        (fun fs => ⟨if flag = 0x80 then .trailer else .data, payload⟩ :: fs) := by
  have hA : (putUint32 payload.length).length = 4 := by simp [putUint32]
  have hu : uint32be ((flag :: putUint32 payload.length ++ (payload ++ rest)).drop 1) =
      payload.length := by
    simpa using uint32be_putUint32 payload.length (payload ++ rest) h
  have hlen : (flag :: putUint32 payload.length ++ (payload ++ rest)).length =
      5 + payload.length + rest.length := by
    simp [putUint32]
    omega
  have hdrop5 : (flag :: putUint32 payload.length ++ (payload ++ rest)).drop 5 =
      payload ++ rest := by
    show (putUint32 payload.length ++ (payload ++ rest)).drop 4 = payload ++ rest
    exact List.drop_left' hA
  have hdrop : (flag :: putUint32 payload.length ++ (payload ++ rest)).drop
      (5 + payload.length) = rest := by
    rw [← List.drop_drop payload.length 5, hdrop5, List.drop_left]
  have htake : ((flag :: putUint32 payload.length ++ (payload ++ rest)).drop 5).take
      payload.length = payload := by
    rw [hdrop5, List.take_left]
  rw [specSplitFrames]
  simp only [hu, hlen, hdrop, htake, List.isEmpty_cons, List.headD_cons]
  rw [if_neg (by simp), if_neg (by omega), if_neg (by omega)]
  cases specSplitFrames rest <;> simp

/-- A data frame is five header bytes plus the payload. -/
theorem encodeDataFrame_length (data : Bytes) :
    (encodeDataFrame data).length = 5 + data.length := by
  simp only [encodeDataFrame, putUint32, List.length_append, List.length_cons,
    List.length_nil]

/-- Lemma: `decodeFrame` on a body whose declared length fits: the payload is
bytes 5 through `5 + length`. -/
theorem decodeFrame_of_fits (body : Bytes) (h5 : 5 ≤ body.length)
    (hfit : uint32be (body.drop 1) + 5 ≤ body.length) :
    decodeFrame body = some ((body.drop 5).take (uint32be (body.drop 1))) := by
  simp only [decodeFrame]
  rw [if_neg (by omega), if_neg (by omega)]

/-- A body holding exactly one well-formed frame splits into that frame. -/
theorem specSplitFrames_single (flag : Nat) (payload : Bytes) (h : payload.length < 2 ^ 32) :
    specSplitFrames ((flag :: putUint32 payload.length) ++ payload) =
      some [⟨if flag = 0x80 then .trailer else .data, payload⟩] := by
  have hc := specSplitFrames_cons flag payload [] h
  rw [List.append_nil, specSplitFrames_nil] at hc
  simpa using hc

/-- Dropping the flag byte of a zero-length-prefixed frame reads length 0. -/
theorem uint32be_drop_one_zero_frame (rest : Bytes) :
    uint32be (((0 : Nat) :: ([0, 0, 0, 0] ++ rest)).drop 1) = 0 := by
  simp [uint32be]

/-!
## Claim theorems
-/

/-- C1: the claim says a field value whose claimed length exceeds the
remaining bytes fails with `ParseError` and the decoder never panics; in
fact the source never checks the result of `ConsumeBytes` (and
`manualGetAppointment`/`manualUpdateAppointment` do not check
`ConsumeFieldValue` either), so `payload = payload[n:]` runs with a
negative `n` and the decoders panic on the three-byte payload
`[0x0A, 0x05, 0x01]` (field 1, length-delimited, claimed length 5, one
byte remaining). -/
theorem c1_overlong_value_panics :
    (∀ d : DirectHandler, manualLogin d [0x0A, 0x05, 0x01] = .panicked) ∧
    decodeGetRequest [0x0A, 0x05, 0x01] = .panicked ∧
    decodeUpdateRequest [0x0A, 0x05, 0x01] = .panicked :=
  ⟨fun _ => rfl, by decide, by decide⟩

/-- C3: a request body of fewer than 5 bytes, or whose declared 4-byte
big-endian length exceeds the bytes remaining after the 5-byte header, is
rejected with an `InvalidArgument` (3) trailer, and no backend-transport
or handler call is recorded. -/
theorem c3_malformed_frame_rejected
    (prim : JwtPrim) (secret : String) (direct : Option DirectHandler)
    (transport : Transport) (path : String) (auth : List Char) (body : Bytes) :
    (body.length < 5 →
      forward prim secret direct transport path auth body =
        .http (writeError 3 "body too short") []) ∧
    (5 ≤ body.length → body.length < uint32be (body.drop 1) + 5 →
      forward prim secret direct transport path auth body =
        .http (writeError 3 "incomplete frame") []) := by
  constructor
  · intro h
    simp only [forward]
    rw [if_pos h]
  · intro h5 hover
    simp only [forward]
    rw [if_neg (by omega), if_pos (by omega)]

/-- C3 witness: the empty body and a 5-byte body declaring a 9-byte
payload are both rejected without any collaborator call. -/
theorem c3_witness :
    forward hsPrim ("s") none okTransport ("/p") [] [] =
      .http (writeError 3 "body too short") [] ∧
    forward hsPrim ("s") none okTransport ("/p") [] [0, 0, 0, 0, 9] =
      .http (writeError 3 "incomplete frame") [] :=
  ⟨(c3_malformed_frame_rejected hsPrim ("s") none okTransport ("/p") [] []).1 (by decide),
    (c3_malformed_frame_rejected hsPrim ("s") none okTransport ("/p") [] [0, 0, 0, 0, 9]).2
      (by decide) (by decide)⟩

/-- C7 counterexample: for the `2 ^ 32`-byte payload the data frame's
4-byte length field wraps to 0, so the declared length differs from
`len(P)` and decoding the frame returns the empty payload, not `P`. -/
theorem c7_counterexample_length_wraps :
    uint32be ((encodeDataFrame bigPayload).drop 1) ≠ bigPayload.length ∧
    decodeFrame (encodeDataFrame bigPayload) ≠ some bigPayload := by
  have hbig : bigPayload.length = 2 ^ 32 := by
    rw [bigPayload]
    exact List.length_replicate _ _
  have hput : putUint32 (2 ^ 32) = [0, 0, 0, 0] := by norm_num [putUint32]
  have henc : encodeDataFrame bigPayload = 0 :: ([0, 0, 0, 0] ++ bigPayload) := by
    rw [encodeDataFrame, hbig, hput]
    rfl
  have hu : uint32be ((encodeDataFrame bigPayload).drop 1) = 0 := by
    rw [henc]
    rfl
  have hlen : (encodeDataFrame bigPayload).length = 5 + 2 ^ 32 := by
    rw [encodeDataFrame_length, bigPayload, List.length_replicate]
  constructor
  · rw [hu, hbig]
    norm_num
  · have hdec : decodeFrame (encodeDataFrame bigPayload) = some [] := by
      rw [decodeFrame_of_fits _ (by omega) (by omega), hu, List.take_zero]
    rw [hdec]
    intro hcontra
    have hnil : ([] : Bytes) = bigPayload := Option.some.inj hcontra
    have hlen0 := congrArg List.length hnil
    rw [hbig] at hlen0
    simp only [List.length_nil] at hlen0
    omega

/-- C7 (amended): for every payload of fewer than `2 ^ 32` bytes, decoding
the encoded data frame recovers the payload exactly and the declared
4-byte length equals `len(P)`. -/
theorem c7_amended_frame_roundtrip (P : Bytes) (h : P.length < 2 ^ 32) :
    decodeFrame (encodeDataFrame P) = some P ∧
    uint32be ((encodeDataFrame P).drop 1) = P.length := by
  have hu : uint32be ((encodeDataFrame P).drop 1) = P.length := by
    simpa [encodeDataFrame] using uint32be_putUint32 P.length P h
  have hlen : (encodeDataFrame P).length = 5 + P.length := encodeDataFrame_length P
  have hdrop : (encodeDataFrame P).drop 5 = P := by
    show (putUint32 P.length ++ P).drop 4 = P
    exact List.drop_left' (by simp [putUint32])
  refine ⟨?_, hu⟩
  rw [decodeFrame_of_fits _ (by omega) (by omega), hu, hdrop, List.take_length]

/-- C7 witness: the round trip on the concrete payload `[1, 2, 3]`. -/
theorem c7_witness :
    decodeFrame (encodeDataFrame [1, 2, 3]) = some [1, 2, 3] ∧
    uint32be ((encodeDataFrame [1, 2, 3]).drop 1) = 3 :=
  c7_amended_frame_roundtrip [1, 2, 3] (by decide)

/-- C8 counterexample: encoding the all-zero appointment emits every string
field as an explicit tag plus zero length (bytes `0x12, 0x00` are the
zero-valued title field, etc.) instead of omitting zero-valued scalar
fields entirely. -/
theorem c8_counterexample_zero_strings_emitted :
    appendAppointment [] 1 (some emptyAppointment) =
      [0x0A, 12, 0x0A, 0, 0x12, 0, 0x1A, 0, 0x32, 0, 0x3A, 0, 0x42, 0] ∧
    0x12 ∈ apptInner emptyAppointment := by
  exact ⟨by decide, by decide⟩

/-- C8 (amended): a nil timestamp submessage is omitted entirely and a
present one is always emitted as a length-delimited field; inside it a
zero seconds/nanos varint field is omitted; but the zero-valued string
fields of the appointment encoder are emitted unconditionally. -/
theorem c8_amended_zero_omission :
    (∀ out num, appendTimestamp out num none = out) ∧
    (∀ out num t, appendTimestamp out num (some t) =
      appendBytes (appendTag out num 2) (tsInner t)) ∧
    (∀ s n : Int, tsInner ⟨s, n⟩ =
      (if s = 0 then [] else appendVarint (appendTag [] 1 0) (toUint64 s)) ++
      (if n = 0 then [] else appendVarint (appendTag [] 2 0) (toUint64 n))) ∧
    (∀ out num, appendAppointment out num none = out) ∧
    (∀ out num a, appendAppointment out num (some a) =
      appendBytes (appendTag out num 2) (apptInner a)) ∧
    apptInner emptyAppointment ≠ [] := by
  refine ⟨fun _ _ => rfl, fun _ _ _ => rfl, ?_, fun _ _ => rfl, fun _ _ _ => rfl, by decide⟩
  intro s n
  by_cases hs : s = 0 <;> by_cases hn : n = 0 <;>
    simp [tsInner, hs, hn, appendVarint, appendTag, appendBytes]

/-- C9 counterexample: two request bodies that differ only in the leading
flag byte (`0x00` data vs `0x80` trailer) are processed identically by the
bridge — same payload extraction, same backend call, same response. -/
theorem c9_counterexample_flag_ignored :
    forward hsPrim ("s") none okTransport ("/svc/M") [] (0x00 :: [0, 0, 0, 1, 0x42]) =
      forward hsPrim ("s") none okTransport ("/svc/M") [] (0x80 :: [0, 0, 0, 1, 0x42]) ∧
    forward hsPrim ("s") none okTransport ("/svc/M") [] (0x00 :: [0, 0, 0, 1, 0x42]) =
      .http (writeSuccess [0x42]) [.backend ("/svc/M") [] [0x42]] :=
  ⟨rfl, by decide⟩

/-- C9 (amended): the inbound decode of `forward` never inspects the flag
byte: any two bodies that agree after the first byte produce identical
outcomes, whatever the environment. -/
theorem c9_amended_inbound_flag_ignored
    (prim : JwtPrim) (secret : String) (direct : Option DirectHandler)
    (transport : Transport) (path : String) (auth : List Char)
    (f1 f2 : Nat) (rest : Bytes) :
    forward prim secret direct transport path auth (f1 :: rest) =
      forward prim secret direct transport path auth (f2 :: rest) := rfl

/-- C2: for every direct-dispatch method other than Login/Register, a
failing credential check (absent or invalid `Authorization`) produces the
`Unauthenticated` (16) trailer, no collaborator call is recorded, and the
outcome is independent of the payload — authentication happens before any
decode or handler work. -/
theorem c2_auth_failure_blocks_direct_methods
    (prim : JwtPrim) (secret : String) (d : DirectHandler) (payload : Bytes)
    (hdr : List Char) (e : Nat × String)
    (h : manualAuth prim secret hdr = .error e) :
    e.1 = 16 ∧
    manualListAppointments prim secret d payload hdr = .http (writeError 16 e.2) [] ∧
    manualCreateAppointment prim secret d payload hdr = .http (writeError 16 e.2) [] ∧
    manualGetAppointment prim secret d payload hdr = .http (writeError 16 e.2) [] ∧
    manualUpdateAppointment prim secret d payload hdr = .http (writeError 16 e.2) [] ∧
    manualDeleteAppointment prim secret d payload hdr = .http (writeError 16 e.2) [] := by
  have h16 : e.1 = 16 := by
    unfold manualAuth at h
    split at h
    · simp only [Except.error.injEq] at h
      rw [← h]
    · split at h
      · simp only [Except.error.injEq] at h
        rw [← h]
      · exact absurd h (by simp)
  refine ⟨h16, ?_, ?_, ?_, ?_, ?_⟩ <;>
    · simp only [manualListAppointments, manualCreateAppointment, manualGetAppointment,
        manualUpdateAppointment, manualDeleteAppointment, h]
      rw [h16]

/-- C2 witness: with no `Authorization` header every authenticated method
answers `Unauthenticated`/"no token" and records no collaborator call. -/
theorem c2_witness :
    ((16, "no token") : Nat × String).1 = 16 ∧
    manualListAppointments hsPrim ("s") stubHandler [] [] =
      .http (writeError 16 "no token") [] ∧
    manualCreateAppointment hsPrim ("s") stubHandler [] [] =
      .http (writeError 16 "no token") [] ∧
    manualGetAppointment hsPrim ("s") stubHandler [] [] =
      .http (writeError 16 "no token") [] ∧
    manualUpdateAppointment hsPrim ("s") stubHandler [] [] =
      .http (writeError 16 "no token") [] ∧
    manualDeleteAppointment hsPrim ("s") stubHandler [] [] =
      .http (writeError 16 "no token") [] :=
  c2_auth_failure_blocks_direct_methods hsPrim ("s") stubHandler [] [] (16, "no token")
    (by decide)

/-- C5: whenever a token's header declares a signing method outside the
HMAC family, `ParseToken` fails for every secret — the key function
algorithm-pins verification, so no such credential can authenticate. -/
theorem c5_non_hmac_always_rejected
    (prim : JwtPrim) (raw : List Char) (secret : String) (m : SigAlg)
    (hm : declaredMethod prim raw = some m) (hnot : m.isHMAC = false) :
    ∃ e, parseToken prim raw secret = .error e := by
  unfold declaredMethod at hm
  rcases hs : splitOnDot raw with _ | ⟨h1, _ | ⟨p1, _ | ⟨s1, _ | ⟨x1, tl⟩⟩⟩⟩
  · rw [hs] at hm
    simp at hm
  · rw [hs] at hm
    simp at hm
  · rw [hs] at hm
    simp at hm
  · rw [hs] at hm
    by_cases hcs : (h1.all isB64UrlChar && p1.all isB64UrlChar && s1.all isB64UrlChar) = true
    · obtain ⟨alg, ha, hg⟩ := Option.bind_eq_some.mp hm
      cases hdc : prim.decodeClaims p1 with
      | none =>
        refine ⟨.malformed, ?_⟩
        simp [parseToken, hs, hcs, ha, hg, hdc]
      | some c =>
        refine ⟨.badToken, ?_⟩
        simp [parseToken, hs, hcs, ha, hg, hdc, hnot]
    · refine ⟨.malformed, ?_⟩
      simp [parseToken, hs, hcs]
  · rw [hs] at hm
    simp at hm

/-- C5 witness: a three-segment token whose header declares `RS256` is
rejected. -/
theorem c5_witness : ∃ e, parseToken rsPrim ("a.b.c".toList) ("s") = .error e :=
  c5_non_hmac_always_rejected rsPrim ("a.b.c".toList) ("s") .RS256 (by decide) (by decide)

/-- Lemma: `splitOnDot` always produces at least one segment. -/
theorem splitOnDot_ne_nil (l : List Char) : splitOnDot l ≠ [] := by
  cases l with
  | nil => simp [splitOnDot]
  | cons c rest =>
    unfold splitOnDot
    split
    · simp
    · split <;> simp

/-- Every character of a string is either in one of its dot-separated
segments or is the dot itself. -/
theorem splitOnDot_chars (p : Char → Prop) :
    ∀ l : List Char, (∀ g ∈ splitOnDot l, ∀ ch ∈ g, p ch) →
      ∀ ch ∈ l, p ch ∨ ch = '.' := by
  intro l
  induction l with
  | nil =>
    intro _ ch hch
    cases hch
  | cons c rest ih =>
    intro hg ch hch
    by_cases hc : c = '.'
    · have hsplit : splitOnDot (c :: rest) = [] :: splitOnDot rest := by
        simp [splitOnDot, hc]
      have hrest : ∀ g ∈ splitOnDot rest, ∀ x ∈ g, p x := by
        intro g hgm x hx
        exact hg g (by rw [hsplit]; exact List.mem_cons_of_mem _ hgm) x hx
      rcases List.mem_cons.mp hch with hceq | hmem
      · right
        rw [hceq, hc]
      · exact ih hrest ch hmem
    · obtain ⟨g, gs, hr⟩ : ∃ g gs, splitOnDot rest = g :: gs := by
        cases hsr : splitOnDot rest with
        | nil => exact absurd hsr (splitOnDot_ne_nil rest)
        | cons g gs => exact ⟨g, gs, rfl⟩
      have hcons : splitOnDot (c :: rest) = (c :: g) :: gs := by
        simp [splitOnDot, hc, hr]
      have hrest : ∀ g' ∈ splitOnDot rest, ∀ x ∈ g', p x := by
        intro g' hg' x hx
        rw [hr] at hg'
        rcases List.mem_cons.mp hg' with h1 | h2
        · exact hg (c :: g) (by rw [hcons]; exact List.mem_cons_self _ _) x
            (by rw [h1] at hx; exact List.mem_cons_of_mem _ hx)
        · exact hg g' (by rw [hcons]; exact List.mem_cons_of_mem _ h2) x hx
      rcases List.mem_cons.mp hch with hceq | hmem
      · left
        rw [hceq]
        exact hg (c :: g) (by rw [hcons]; exact List.mem_cons_self _ _) c
          (List.mem_cons_self _ _)
      · exact ih hrest ch hmem

/-- A token accepted by `parseToken` splits into three segments whose
characters all lie in the base64url alphabet. -/
theorem parseToken_ok_chars (prim : JwtPrim) (secret : String) (t : List Char) (c : Claims)
    (hv : parseToken prim t secret = .ok c) :
    (∃ h1 p1 s1, splitOnDot t = [h1, p1, s1]) ∧
      ∀ ch ∈ t, isB64UrlChar ch = true ∨ ch = '.' := by
  unfold parseToken at hv
  rcases hs : splitOnDot t with _ | ⟨h1, _ | ⟨p1, _ | ⟨s1, _ | ⟨x1, tl⟩⟩⟩⟩ <;> rw [hs] at hv
  · exact absurd hv (by simp)
  · exact absurd hv (by simp)
  · exact absurd hv (by simp)
  case cons.cons.cons.nil =>
    by_cases hcs : (h1.all isB64UrlChar && p1.all isB64UrlChar && s1.all isB64UrlChar) = true
    · refine ⟨⟨h1, p1, s1, rfl⟩, ?_⟩
      apply splitOnDot_chars (fun ch => isB64UrlChar ch = true) t
      intro g hgm x hx
      rw [hs] at hgm
      have hall := Bool.and_eq_true_iff.mp hcs
      have h1a := Bool.and_eq_true_iff.mp hall.1
      rcases List.mem_cons.mp hgm with rfl | hgm2
      · exact List.all_eq_true.mp h1a.1 x hx
      rcases List.mem_cons.mp hgm2 with rfl | hgm3
      · exact List.all_eq_true.mp h1a.2 x hx
      rcases List.mem_cons.mp hgm3 with rfl | hgm4
      · exact List.all_eq_true.mp hall.2 x hx
      · cases hgm4
    · exact absurd hv (by simp [hcs])
  · exact absurd hv (by simp)

/-- C10: the credential extraction strips `"Bearer "` only when present,
so any header value that is itself a valid token authenticates exactly as
`"Bearer "` plus that value does: both resolve the same user id. -/
theorem c10_bare_token_accepted (prim : JwtPrim) (secret : String) (t : List Char)
    (c : Claims) (hv : parseToken prim t secret = .ok c) :
    manualAuth prim secret t = .ok c.uid ∧
    manualAuth prim secret ("Bearer ".toList ++ t) = .ok c.uid := by
  obtain ⟨⟨h1, p1, s1, hs⟩, hchars⟩ := parseToken_ok_chars prim secret t c hv
  have htne : t ≠ [] := by
    intro h0
    rw [h0] at hs
    simp [splitOnDot] at hs
  have hnopre : ¬ ("Bearer ".toList.isPrefixOf t = true) := by
    intro hp
    obtain ⟨rest, hrest⟩ := List.isPrefixOf_iff_prefix.mp hp
    have hsp : (' ' : Char) ∈ t := by
      rw [← hrest]
      exact List.mem_append.mpr (Or.inl (by decide))
    rcases hchars ' ' hsp with hb | hdot
    · exact absurd hb (by decide)
    · exact absurd hdot (by decide)
  constructor
  · simp only [manualAuth, trimBearer]
    rw [if_neg htne, if_neg hnopre, hv]
  · have hne2 : "Bearer ".toList ++ t ≠ [] := by
      intro h0
      have := congrArg List.length h0
      simp at this
    have hpre : ("Bearer ".toList).isPrefixOf ("Bearer ".toList ++ t) = true :=
      List.isPrefixOf_iff_prefix.mpr (List.prefix_append _ _)
    simp only [manualAuth, trimBearer]
    rw [if_neg hne2, if_pos hpre, List.drop_left, hv]

/-- C10 witness: a concrete accepted token authenticates both bare and
with the `"Bearer "` prefix, yielding the same user id. -/
theorem c10_witness :
    manualAuth hsPrim ("s") ("a.b.c".toList) = .ok ("u1") ∧
    manualAuth hsPrim ("s") ("Bearer ".toList ++ "a.b.c".toList) = .ok ("u1") :=
  c10_bare_token_accepted hsPrim ("s") ("a.b.c".toList) ⟨"u1"⟩ (by decide)

/-- C4 counterexample: for a `2 ^ 32`-byte response payload the success
body's data frame declares length 0 (the `uint32` conversion wraps), not
the payload length, falsifying "length equal to the payload length" as
stated for every payload. -/
theorem c4_counterexample_length_wraps :
    uint32be ((writeSuccess bigPayload).body.drop 1) ≠ bigPayload.length := by
  have hbig : bigPayload.length = 2 ^ 32 := by
    rw [bigPayload]
    exact List.length_replicate _ _
  have hput : putUint32 (2 ^ 32) = [0, 0, 0, 0] := by norm_num [putUint32]
  have h1 : (writeSuccess bigPayload).body =
      (0 :: putUint32 bigPayload.length) ++
        (bigPayload ++ ((0x80 :: putUint32 (strBytes successTrailer).length) ++
          strBytes successTrailer)) := by
    simp only [writeSuccess, List.append_assoc]
  rw [h1, hbig, hput, List.cons_append, uint32be_drop_one_zero_frame]
  norm_num

/-- C4 (amended): for every response payload shorter than `2 ^ 32` bytes
the success body splits into exactly a Data frame carrying the payload
followed by a Trailer frame whose text is `grpc-status:0\r\n` with no
message line; and for every error whose trailer text is shorter than
`2 ^ 32` bytes the body is a single Trailer frame with the
status+message text; both responses use HTTP status 200. -/
theorem c4_amended_response_framing :
    (∀ data : Bytes, data.length < 2 ^ 32 →
      specSplitFrames (writeSuccess data).body =
        some [⟨.data, data⟩, ⟨.trailer, strBytes successTrailer⟩] ∧
      (writeSuccess data).status = 200) ∧
    (∀ (code : Nat) (msg : String), (strBytes (trailerText code msg)).length < 2 ^ 32 →
      specSplitFrames (writeError code msg).body =
        some [⟨.trailer, strBytes (trailerText code msg)⟩] ∧
      (writeError code msg).status = 200) := by
  constructor
  · intro data hlt
    have htb : (strBytes successTrailer).length < 2 ^ 32 := by decide
    refine ⟨?_, rfl⟩
    show specSplitFrames (((0x00 :: putUint32 data.length) ++ data) ++
        ((0x80 :: putUint32 (strBytes successTrailer).length) ++ strBytes successTrailer)) =
      some [⟨.data, data⟩, ⟨.trailer, strBytes successTrailer⟩]
    rw [List.append_assoc, specSplitFrames_cons 0x00 data _ hlt,
      specSplitFrames_single 0x80 _ htb]
    simp
  · intro code msg hlt
    refine ⟨?_, rfl⟩
    show specSplitFrames ((0x80 :: putUint32 (strBytes (trailerText code msg)).length) ++
        strBytes (trailerText code msg)) =
      some [⟨.trailer, strBytes (trailerText code msg)⟩]
    rw [specSplitFrames_single 0x80 _ hlt]
    simp

/-- C4 witness: the concrete one-byte success payload and a concrete
error trailer. -/
theorem c4_witness :
    (specSplitFrames (writeSuccess [7]).body =
        some [⟨.data, [7]⟩, ⟨.trailer, strBytes successTrailer⟩] ∧
      (writeSuccess [7]).status = 200) ∧
    (specSplitFrames (writeError 5 "not found").body =
        some [⟨.trailer, strBytes (trailerText 5 "not found")⟩] ∧
      (writeError 5 "not found").status = 200) :=
  ⟨c4_amended_response_framing.1 [7] (by decide),
    c4_amended_response_framing.2 5 "not found" (by decide)⟩

/-- C6: for a well-framed request to a path outside the seven-suffix
direct-dispatch allow-list, the undecoded payload bytes are handed to the
backend transport at the same path with the `Authorization` value
forwarded; a successful transport result is relayed unchanged inside the
success frame pair, and a failing one yields a trailer-only error with
the transport's code and message verbatim. -/
theorem c6_opaque_forwarding
    (prim : JwtPrim) (secret : String) (d : DirectHandler) (transport : Transport)
    (path : String) (auth : List Char) (body : Bytes)
    (h5 : 5 ≤ body.length) (hfit : uint32be (body.drop 1) + 5 ≤ body.length)
    (hs1 : hasSuffixStr path ("/Login") = false)
    (hs2 : hasSuffixStr path ("/Register") = false)
    (hs3 : hasSuffixStr path ("/ListAppointments") = false)
    (hs4 : hasSuffixStr path ("/CreateAppointment") = false)
    (hs5 : hasSuffixStr path ("/GetAppointment") = false)
    (hs6 : hasSuffixStr path ("/UpdateAppointment") = false)
    (hs7 : hasSuffixStr path ("/DeleteAppointment") = false) :
    (∀ data, transport path auth ((body.drop 5).take (uint32be (body.drop 1))) = .ok data →
      forward prim secret (some d) transport path auth body =
        .http (writeSuccess data)
          [.backend path auth ((body.drop 5).take (uint32be (body.drop 1)))]) ∧
    (∀ cd ms, transport path auth ((body.drop 5).take (uint32be (body.drop 1))) =
        .error ⟨cd, ms⟩ →
      forward prim secret (some d) transport path auth body =
        .http (writeError cd ms)
          [.backend path auth ((body.drop 5).take (uint32be (body.drop 1)))]) := by
  have hfwd : forward prim secret (some d) transport path auth body =
      relayBackend transport path auth ((body.drop 5).take (uint32be (body.drop 1))) := by
    simp only [forward]
    rw [if_neg (by omega), if_neg (by omega)]
    simp [hs1, hs2, hs3, hs4, hs5, hs6, hs7]
  constructor
  · intro data hok
    rw [hfwd]
    simp only [relayBackend, rawMarshal, rawUnmarshal, hok]
  · intro cd ms herr
    rw [hfwd]
    simp only [relayBackend, rawMarshal, rawUnmarshal, herr]

/-- C6 witness: a concrete unrecognized path with an echoing transport
relays the one-byte payload unchanged. -/
theorem c6_witness :
    forward hsPrim ("s") (some stubHandler) okTransport ("/svc/Ping") [] [0, 0, 0, 0, 1, 7] =
      .http (writeSuccess [7]) [.backend ("/svc/Ping") [] [7]] :=
  (c6_opaque_forwarding hsPrim ("s") stubHandler okTransport ("/svc/Ping") [] [0, 0, 0, 0, 1, 7]
    (by decide) (by decide) (by decide) (by decide) (by decide) (by decide) (by decide)
    (by decide) (by decide)).1 [7] (by decide)

end GrpcWebBridge
